import Mathlib

/-!
Shallow embedding of the numerical core of the logistic-react repository:
the logistic population simulation (PopulationCalculator), the bifurcation
sweep (BifurcationDiagram), the Lorenz Euler stepper (LorenzAttractor) and
the Brusselator RK4 simulator (ChemicalOscillator).  JavaScript numbers are
modelled as rationals; `Math.round` is modelled as `fun x => ⌊x + 1/2⌋`,
`Math.max(0, x)` as `max 0 x`.
-/

namespace LogisticReact

/-- JavaScript `Math.round`: round half up, i.e. `⌊x + 0.5⌋`. -/
def jsRound (x : ℚ) : ℤ := ⌊x + 1/2⌋

/-- `Math.round(x * 100) / 100`, rounding to 2 decimal digits. -/
def round2 (x : ℚ) : ℚ := (jsRound (x * 100) : ℚ) / 100

/-- `Math.round(x * 1000) / 1000`, rounding to 3 decimal digits. -/
def round3 (x : ℚ) : ℚ := (jsRound (x * 1000) : ℚ) / 1000

/-! ### Logistic map (PopulationCalculator.jsx / BifurcationDiagram.jsx) -/

/-- One generation of the logistic recurrence as written at all three code
sites: `r * P * (1 - P / K)` followed by `Math.max(0, ·)`. -/
def logisticNext (r K P : ℚ) : ℚ := max 0 (r * P * (1 - P / K))

/-- The body of the `for (let year = 1; year <= years; year++)` loop of
`calculatePopulation`: starting from population `pop` at year `year`, run
`n` more generations, pushing `(year, round2 population)` each time. -/
def calcPopAux (r K : ℚ) (pop : ℚ) (year : ℕ) : ℕ → List (ℕ × ℚ)
  | 0 => []
  | n + 1 =>
    let p1 := r * pop * (1 - pop / K)
    let p2 := max 0 p1
    (year, round2 p2) :: calcPopAux r K p2 (year + 1) n

/-- `calculatePopulation`: the published data list, with the year-0 entry
holding the initial population exactly as supplied. -/
def calculatePopulation (P0 r K : ℚ) (years : ℕ) : List (ℕ × ℚ) :=
  (0, P0) :: calcPopAux r K P0 1 years

/-! ### Bifurcation sweep (BifurcationDiagram.jsx) -/

structure BifParams where
  minGrowthRate : ℚ
  maxGrowthRate : ℚ
  carryingCapacity : ℚ
  initialPopulation : ℚ
  settlePeriods : ℕ
  samplePeriods : ℕ

/-- `const totalPoints = 1000`. -/
def totalPoints : ℕ := 1000

/-- The settling loop: `settlePeriods` generations, discarding values. -/
def settleLoop (r K : ℚ) (pop : ℚ) : ℕ → ℚ
  | 0 => pop
  | n + 1 =>
    let p1 := r * pop * (1 - pop / K)
    let p2 := max 0 p1
    settleLoop r K p2 n

/-- JavaScript `Set.add`: insert at the tail unless already present
(`Set` preserves insertion order). -/
def insertDedup (l : List ℚ) (x : ℚ) : List ℚ :=
  if x ∈ l then l else l ++ [x]

/-- The sampling loop: `samplePeriods` further generations, inserting each
rounded value into the deduplication set; returns the final population and
the collected values in insertion order. -/
def sampleLoop (r K : ℚ) (pop : ℚ) (acc : List ℚ) : ℕ → ℚ × List ℚ
  | 0 => (pop, acc)
  | n + 1 =>
    let p1 := r * pop * (1 - pop / K)
    let p2 := max 0 p1
    sampleLoop r K p2 (insertDedup acc (round2 p2)) n

/-- One iteration of the `for (let i = 0; i <= totalPoints; i++)` loop:
the points emitted for slice index `i`. -/
def bifSlice (p : BifParams) (i : ℕ) : List (ℚ × ℚ) :=
  let stepSize := (p.maxGrowthRate - p.minGrowthRate) / (totalPoints : ℚ)
  let growthRate := p.minGrowthRate + (i : ℚ) * stepSize
  let settled := settleLoop growthRate p.carryingCapacity p.initialPopulation p.settlePeriods
  let vals := (sampleLoop growthRate p.carryingCapacity settled [] p.samplePeriods).2
  vals.map fun v => (round3 growthRate, v)

/-- `bifurcationData`: all points emitted over slices `i = 0 .. totalPoints`. -/
def bifurcationData (p : BifParams) : List (ℚ × ℚ) :=
  (List.range (totalPoints + 1)).flatMap (bifSlice p)

/-! ### Lorenz attractor (LorenzAttractor.jsx) -/

structure LorenzState where
  x : ℚ
  y : ℚ
  z : ℚ
  deriving DecidableEq

/-- One pass of the `animate` loop's numeric core: `dt = 0.01 * speed`, the
three increments computed from the destructured pre-step state, then added. -/
def lorenzStep (speed sigma rho beta : ℚ) (s : LorenzState) : LorenzState :=
  let dt := 1/100 * speed
  let dx := sigma * (s.y - s.x) * dt
  let dy := (s.x * (rho - s.z) - s.y) * dt
  let dz := (s.x * s.y - beta * s.z) * dt
  { x := s.x + dx, y := s.y + dy, z := s.z + dz }

/-! ### Brusselator (ChemicalOscillator.jsx) -/

structure BrusselatorParams where
  A : ℚ
  B : ℚ
  k1 : ℚ
  k2 : ℚ
  k3 : ℚ
  k4 : ℚ
  deriving DecidableEq

/-- `derivatives(x, y, params)`. -/
def derivatives (x y : ℚ) (p : BrusselatorParams) : ℚ × ℚ :=
  (p.k1 * p.A - p.k2 * p.B * x + p.k3 * x * x * y - p.k4 * x,
   p.k2 * p.B * x - p.k3 * x * x * y)

/-- `rungeKutta(x, y, dt, params)`: classical RK4 step followed by
`Math.max(0, ·)` on each component. -/
def rungeKutta (x y dt : ℚ) (p : BrusselatorParams) : ℚ × ℚ :=
  let K1 := derivatives x y p
  let K2 := derivatives (x + 1/2 * dt * K1.1) (y + 1/2 * dt * K1.2) p
  let K3 := derivatives (x + 1/2 * dt * K2.1) (y + 1/2 * dt * K2.2) p
  let K4 := derivatives (x + dt * K3.1) (y + dt * K3.2) p
  let newX := x + dt / 6 * (K1.1 + 2 * K2.1 + 2 * K3.1 + K4.1)
  let newY := y + dt / 6 * (K1.2 + 2 * K2.2 + 2 * K3.2 + K4.2)
  (max 0 newX, max 0 newY)

/-- `const dt = 0.01`. -/
def dt : ℚ := 1/100

/-- `const maxPoints = 1000`. -/
def maxPoints : ℕ := 1000

/-- `systemStateRef.current`: the mutable simulation state. -/
structure SystemState where
  X : ℚ
  Y : ℚ
  time : ℚ
  phasePoints : List (ℚ × ℚ)
  timePoints : List (ℚ × ℚ × ℚ)
  deriving DecidableEq

/-- The initial `systemStateRef` contents. -/
def initialState : SystemState :=
  { X := 1, Y := 1, time := 0, phasePoints := [], timePoints := [] }

/-- `updateSystem`: early-return when paused; otherwise one RK4 step,
advance time, push one point to each trajectory buffer and shift each
buffer whose length exceeds `maxPoints`. -/
def updateSystem (isPaused : Bool) (params : BrusselatorParams) (s : SystemState) :
    SystemState :=
  if isPaused then s
  else
    let XY := rungeKutta s.X s.Y dt params
    let t := s.time + dt
    let pp := s.phasePoints ++ [(XY.1, XY.2)]
    let tp := s.timePoints ++ [(t, XY.1, XY.2)]
    { X := XY.1, Y := XY.2, time := t,
      phasePoints := if pp.length > maxPoints then pp.tail else pp,
      timePoints := if tp.length > maxPoints then tp.tail else tp }

/-- `resetSimulation`: restore seed state and clear both buffers. -/
def resetSimulation (_s : SystemState) : SystemState :=
  { X := 1, Y := 1, time := 0, phasePoints := [], timePoints := [] }

/-- States of `systemStateRef` reachable from start by ticks (paused or
not, under any parameters) and resets. -/
inductive Reachable : SystemState → Prop
  | init : Reachable initialState
  | tick (isPaused : Bool) (params : BrusselatorParams) (s : SystemState) :
      Reachable s → Reachable (updateSystem isPaused params s)
  | reset (s : SystemState) : Reachable s → Reachable (resetSimulation s)

/-! ### Trajectory buffer (LorenzAttractor.jsx trail / ChemicalOscillator buffers) -/

/-- The buffer idiom used by both continuous systems: `push`, then `shift`
if the length now exceeds the capacity `C`. -/
def bufAppend {α : Type} (C : ℕ) (buf : List α) (a : α) : List α :=
  let b := buf ++ [a]
  if b.length > C then b.tail else b

/-- Appending a whole sequence of states, oldest first. -/
def bufAppendAll {α : Type} (C : ℕ) (buf : List α) (l : List α) : List α :=
  l.foldl (bufAppend C) buf

/-! ### Logistic lemmas -/

lemma settleLoop_succ (r K pop : ℚ) (n : ℕ) :
    settleLoop r K pop (n + 1) = settleLoop r K (logisticNext r K pop) n := rfl

lemma settleLoop_eq_iterate (r K : ℚ) (n : ℕ) :
    ∀ pop, settleLoop r K pop n = (logisticNext r K)^[n] pop := by
  induction n with
  | zero => intro pop; rfl
  | succ n ih =>
    intro pop
    rw [settleLoop_succ, ih, Function.iterate_succ_apply]

lemma sampleLoop_succ (r K pop : ℚ) (acc : List ℚ) (n : ℕ) :
    sampleLoop r K pop acc (n + 1) =
      sampleLoop r K (logisticNext r K pop)
        (insertDedup acc (round2 (logisticNext r K pop))) n := rfl

lemma sampleLoop_fst (r K : ℚ) (n : ℕ) :
    ∀ pop acc, (sampleLoop r K pop acc n).1 = (logisticNext r K)^[n] pop := by
  induction n with
  | zero => intro pop acc; rfl
  | succ n ih =>
    intro pop acc
    rw [sampleLoop_succ, ih, Function.iterate_succ_apply]

lemma calcPopAux_succ (r K pop : ℚ) (year n : ℕ) :
    calcPopAux r K pop year (n + 1) =
      (year, round2 (logisticNext r K pop)) ::
        calcPopAux r K (logisticNext r K pop) (year + 1) n := rfl

lemma calcPopAux_eq (r K : ℚ) (n : ℕ) :
    ∀ (pop : ℚ) (year : ℕ),
      calcPopAux r K pop year n =
        (List.range n).map fun j => (year + j, round2 ((logisticNext r K)^[j + 1] pop)) := by
  induction n with
  | zero => intro pop year; rfl
  | succ n ih =>
    intro pop year
    rw [calcPopAux_succ, ih, List.range_succ_eq_map]
    simp [Function.iterate_succ_apply, List.map_map, Function.comp_def,
      Nat.add_comm, Nat.add_left_comm, Nat.add_assoc]

/-! ### Buffer lemmas -/

lemma bufAppendAll_append_singleton {α : Type} (C : ℕ) (buf l : List α) (a : α) :
    bufAppendAll C buf (l ++ [a]) = bufAppend C (bufAppendAll C buf l) a := by
  simp [bufAppendAll, List.foldl_append]

lemma bufAppend_of_length_lt {α : Type} (C : ℕ) (buf : List α) (a : α)
    (h : buf.length < C) : bufAppend C buf a = buf ++ [a] := by
  unfold bufAppend
  rw [if_neg]
  simp only [List.length_append, List.length_cons, List.length_nil]
  omega

lemma bufAppend_of_length_ge {α : Type} (C : ℕ) (buf : List α) (a : α)
    (h : C ≤ buf.length) : bufAppend C buf a = (buf ++ [a]).tail := by
  unfold bufAppend
  rw [if_pos]
  simp only [List.length_append, List.length_cons, List.length_nil]
  omega

lemma bufAppendAll_nil_eq_drop {α : Type} (C : ℕ) (hC : 0 < C) (l : List α) :
    bufAppendAll C [] l = l.drop (l.length - C) := by
  induction l using List.reverseRecOn with
  | nil => simp [bufAppendAll]
  | append_singleton l a ih =>
    rw [bufAppendAll_append_singleton, ih]
    rcases Nat.lt_or_ge l.length C with h | h
    · rw [Nat.sub_eq_zero_of_le h.le, List.drop_zero,
        bufAppend_of_length_lt C l a h, Nat.sub_eq_zero_of_le (by simp; omega),
        List.drop_zero]
    · have hdl : (l.drop (l.length - C)).length = C := by
        rw [List.length_drop]; omega
      have hne : l.drop (l.length - C) ≠ [] := by
        rw [← List.length_pos, hdl]; omega
      have hidx : (l ++ [a]).length - C = l.length - C + 1 := by simp; omega
      rw [bufAppend_of_length_ge C _ a hdl.ge, List.tail_append_of_ne_nil hne,
        List.tail_drop, List.drop_append_of_le_length (by simp; omega), hidx]

/-! ### Theorems -/

/-- C4: starting empty, after appending `N > C` states the buffer holds
exactly the last `C` appended states, oldest first, and has length `C`;
moreover an append onto a full buffer evicts exactly the head entry. -/
theorem trajectory_buffer_fifo {α : Type} (C : ℕ) (states : List α)
    (hC : 0 < C) (hN : C < states.length) :
    (bufAppendAll C [] states).length = C ∧
    bufAppendAll C [] states = states.drop (states.length - C) ∧
    ∀ (buf : List α) (a : α), buf.length = C → bufAppend C buf a = buf.tail ++ [a] := by
  refine ⟨?_, bufAppendAll_nil_eq_drop C hC states, ?_⟩
  · rw [bufAppendAll_nil_eq_drop C hC states, List.length_drop]
    omega
  · intro buf a hbuf
    rw [bufAppend_of_length_ge C buf a hbuf.ge]
    exact List.tail_append_of_ne_nil (by rw [← List.length_pos, hbuf]; omega)

/-- C4 witness: capacity 2, three appends, the buffer keeps the last two. -/
theorem trajectory_buffer_fifo_witness :
    0 < 2 ∧ 2 < ([1, 2, 3] : List ℕ).length ∧
    ((bufAppendAll 2 [] [1, 2, 3]).length = 2 ∧
     bufAppendAll 2 [] ([1, 2, 3] : List ℕ) =
       ([1, 2, 3] : List ℕ).drop (([1, 2, 3] : List ℕ).length - 2) ∧
     ∀ (buf : List ℕ) (a : ℕ), buf.length = 2 → bufAppend 2 buf a = buf.tail ++ [a]) :=
  ⟨by norm_num, by norm_num, trajectory_buffer_fifo 2 [1, 2, 3] (by norm_num) (by norm_num)⟩

/-- C9: in every reachable simulation state the phase-trajectory buffer and
the time-series buffer have equal length. -/
theorem buffers_equal_length (s : SystemState) (h : Reachable s) :
    s.phasePoints.length = s.timePoints.length := by
  induction h with
  | init => rfl
  | tick isPaused params s _ ih =>
    cases isPaused with
    | true => simpa [updateSystem] using ih
    | false =>
      simp only [updateSystem, Bool.false_eq_true, if_false]
      split_ifs <;>
        simp_all [List.length_tail, List.length_append]
      omega
  | reset s _ _ => rfl

/-- C9 witness: the initial state is reachable and both buffers are empty. -/
theorem buffers_equal_length_witness :
    Reachable initialState ∧
    initialState.phasePoints.length = initialState.timePoints.length :=
  ⟨Reachable.init, buffers_equal_length initialState Reachable.init⟩

/-- C2: one Euler step of the Lorenz system with step size
`h = 0.01 * speedMultiplier` returns
`(x + σ(y−x)h, y + (x(ρ−z)−y)h, z + (xy−βz)h)`, every increment computed
from the pre-step state, with no clamping or bounds check on the result. -/
theorem lorenz_euler_step (speed sigma rho beta : ℚ) (s : LorenzState) :
    lorenzStep speed sigma rho beta s =
      { x := s.x + sigma * (s.y - s.x) * (1/100 * speed),
        y := s.y + (s.x * (rho - s.z) - s.y) * (1/100 * speed),
        z := s.z + (s.x * s.y - beta * s.z) * (1/100 * speed) } := rfl

/-- C3: for every input state, including states with negative components,
and all parameters and step sizes, both components returned by the
Brusselator RK4 step are nonnegative. -/
theorem brusselator_step_nonneg (x y h : ℚ) (p : BrusselatorParams) :
    0 ≤ (rungeKutta x y h p).1 ∧ 0 ≤ (rungeKutta x y h p).2 := by
  constructor <;> simp [rungeKutta]

/-- C7 counterexample: with the zero-derivative parameters, the RK4 step
does not return the input state unchanged when a component is negative:
the final clamp sends `(-1, -1)` to `(0, 0)`. -/
theorem rk4_zero_counterexample :
    rungeKutta (-1) (-1) (1/100) ⟨0, 0, 0, 0, 0, 0⟩ ≠ (-1, -1) := by
  simp [rungeKutta, derivatives]
  norm_num [Prod.ext_iff]

/-- C7 amended: for every input state with both components nonnegative and
every step size, the Brusselator RK4 step with `A = 0`, `B = 0`,
`k1 = k2 = k3 = k4 = 0` returns the input state unchanged. -/
theorem rk4_zero_derivative_id (x y h : ℚ) (hx : 0 ≤ x) (hy : 0 ≤ y) :
    rungeKutta x y h ⟨0, 0, 0, 0, 0, 0⟩ = (x, y) := by
  simp [rungeKutta, derivatives, max_eq_right, hx, hy]

/-- C7 witness: the amended theorem at `(1, 1)` with `h = 0.01`. -/
theorem rk4_zero_derivative_id_witness :
    (0:ℚ) ≤ 1 ∧ rungeKutta 1 1 (1/100) ⟨0, 0, 0, 0, 0, 0⟩ = (1, 1) :=
  ⟨by norm_num, rk4_zero_derivative_id 1 1 (1/100) (by norm_num) (by norm_num)⟩

/-- C8: while paused, a tick mutates nothing — the Brusselator state, the
elapsed time and both trajectory buffers are identical before and after. -/
theorem paused_tick_noop (params : BrusselatorParams) (s : SystemState) :
    updateSystem true params s = s := rfl


/-- C1: one generation of the logistic recurrence is
`max(0, r*P*(1 - P/K))`, and this same one-step function `logisticNext` is
what the year-by-year simulation loop and both inner loops of the
bifurcation sweep apply once per generation. -/
theorem logistic_step_shared (r K P : ℚ) (_hK : K ≠ 0) (n year : ℕ) (acc : List ℚ) :
    logisticNext r K P = max 0 (r * P * (1 - P / K)) ∧
    settleLoop r K P n = (logisticNext r K)^[n] P ∧
    (sampleLoop r K P acc n).1 = (logisticNext r K)^[n] P ∧
    calcPopAux r K P year n =
      (List.range n).map fun j => (year + j, round2 ((logisticNext r K)^[j + 1] P)) :=
  ⟨rfl, settleLoop_eq_iterate r K n P, sampleLoop_fst r K n P acc,
   calcPopAux_eq r K n P year⟩

/-- C1 witness: the shared-step theorem at `P = 2`, `r = 3.8`, `K = 1000`. -/
theorem logistic_step_shared_witness :
    (1000 : ℚ) ≠ 0 ∧
    (logisticNext (38/10) 1000 2 = max 0 ((38/10) * 2 * (1 - 2 / 1000)) ∧
     settleLoop (38/10) 1000 2 3 = (logisticNext (38/10) 1000)^[3] 2 ∧
     (sampleLoop (38/10) 1000 2 [] 3).1 = (logisticNext (38/10) 1000)^[3] 2 ∧
     calcPopAux (38/10) 1000 2 1 3 =
       (List.range 3).map fun j => (1 + j, round2 ((logisticNext (38/10) 1000)^[j + 1] 2))) :=
  ⟨by norm_num, logistic_step_shared (38/10) 1000 2 (by norm_num) 3 1 []⟩

/-- C10: a run of `Y` years publishes `Y + 1` entries; the year-0 entry is
the initial population exactly as supplied, and every entry for years
`1..Y` is clamped to be nonnegative and is an integer multiple of `1/100`
(rounded to 2 decimal digits). -/
theorem calculate_population_shape (P0 r K : ℚ) (years : ℕ) :
    (calculatePopulation P0 r K years).length = years + 1 ∧
    (calculatePopulation P0 r K years)[0]? = some (0, P0) ∧
    ∀ i : ℕ, 1 ≤ i → i ≤ years → ∃ m : ℤ, 0 ≤ m ∧
      (calculatePopulation P0 r K years)[i]? = some (i, (m : ℚ) / 100) := by
  refine ⟨?_, by simp [calculatePopulation], ?_⟩
  · simp [calculatePopulation, calcPopAux_eq]
  · intro i h1 h2
    obtain ⟨j, rfl⟩ : ∃ j, i = j + 1 := ⟨i - 1, by omega⟩
    refine ⟨jsRound (((logisticNext r K)^[j + 1] P0) * 100), ?_, ?_⟩
    · have hv : 0 ≤ (logisticNext r K)^[j + 1] P0 := by
        rw [Function.iterate_succ_apply']
        exact le_max_left _ _
      have h100 : (0:ℚ) ≤ ((logisticNext r K)^[j + 1] P0) * 100 + 1/2 := by
        have := mul_nonneg hv (by norm_num : (0:ℚ) ≤ 100)
        linarith
      exact Int.floor_nonneg.mpr h100
    · rw [calculatePopulation, List.getElem?_cons_succ, calcPopAux_eq,
        List.getElem?_map, List.getElem?_range (by omega : j < years)]
      simp [round2, jsRound, Nat.add_comm]

/-- C10 witness: at `P0 = -5/3` (unrounded, unclamped at year 0),
`r = 3.8`, `K = 1000`, 3 years, entry 2. -/
theorem calculate_population_shape_witness :
    1 ≤ 2 ∧ 2 ≤ 3 ∧ ∃ m : ℤ, 0 ≤ m ∧
      (calculatePopulation (-5/3) (38/10) 1000 3)[2]? = some (2, (m : ℚ) / 100) :=
  ⟨by norm_num, by norm_num,
   (calculate_population_shape (-5/3) (38/10) 1000 3).2.2 2 (by norm_num) (by norm_num)⟩

lemma settleLoop_zero (r K pop : ℚ) : settleLoop r K pop 0 = pop := rfl

lemma sampleLoop_one (r K pop : ℚ) (acc : List ℚ) :
    sampleLoop r K pop acc 1 =
      (max 0 (r * pop * (1 - pop / K)),
       insertDedup acc (round2 (max 0 (r * pop * (1 - pop / K))))) := rfl

lemma insertDedup_ne_nil (l : List ℚ) (x : ℚ) : insertDedup l x ≠ [] := by
  unfold insertDedup
  split_ifs with h
  · intro hl
    rw [hl] at h
    exact List.not_mem_nil x h
  · simp

lemma sampleLoop_acc_ne_nil (r K : ℚ) (n : ℕ) :
    ∀ (pop : ℚ) (acc : List ℚ), acc ≠ [] → (sampleLoop r K pop acc n).2 ≠ [] := by
  induction n with
  | zero => intro pop acc h; exact h
  | succ n ih =>
    intro pop acc h
    rw [sampleLoop_succ]
    exact ih _ _ (insertDedup_ne_nil _ _)

lemma sampleLoop_pos_ne_nil (r K pop : ℚ) (acc : List ℚ) (n : ℕ) :
    (sampleLoop r K pop acc (n + 1)).2 ≠ [] := by
  rw [sampleLoop_succ]
  exact sampleLoop_acc_ne_nil r K n _ _ (insertDedup_ne_nil _ _)

lemma bifSlice_ne_nil (p : BifParams) (hs : 1 ≤ p.samplePeriods) (i : ℕ) :
    bifSlice p i ≠ [] := by
  obtain ⟨m, hm⟩ : ∃ m, p.samplePeriods = m + 1 := ⟨p.samplePeriods - 1, by omega⟩
  simp only [bifSlice, hm, ne_eq, List.map_eq_nil_iff]
  exact sampleLoop_pos_ne_nil _ _ _ _ _

lemma length_flatMap_ge {β : Type} (l : List ℕ) (f : ℕ → List β)
    (h : ∀ i ∈ l, f i ≠ []) : l.length ≤ (l.flatMap f).length := by
  induction l with
  | nil => simp
  | cons a l ih =>
    simp only [List.flatMap_cons, List.length_append, List.length_cons]
    have h1 : 1 ≤ (f a).length := List.length_pos.mpr (h a (by simp))
    have h2 := ih fun i hi => h i (by simp [hi])
    omega

lemma bifSlice_fst (p : BifParams) (hmm : p.minGrowthRate = p.maxGrowthRate) (i : ℕ) :
    ∀ pt ∈ bifSlice p i, pt.1 = round3 p.minGrowthRate := by
  intro pt hpt
  simp only [bifSlice] at hpt
  rw [List.mem_map] at hpt
  obtain ⟨v, hv, rfl⟩ := hpt
  simp [hmm]

/-- C5 amended: when `minGrowthRate > maxGrowthRate` the slice loop still
runs `totalPoints + 1 = 1001` iterations (with a negative step size), so
whenever `samplePeriods ≥ 1` the emitted output has at least 1001 points —
it is not empty.  This case is not an error. -/
theorem bif_inverted_range_nonempty (p : BifParams)
    (_hlt : p.maxGrowthRate < p.minGrowthRate) (hs : 1 ≤ p.samplePeriods) :
    totalPoints + 1 ≤ (bifurcationData p).length := by
  have h := length_flatMap_ge (List.range (totalPoints + 1)) (bifSlice p)
    fun i _ => bifSlice_ne_nil p hs i
  simpa [bifurcationData] using h

/-- C5 witness: the amended theorem at `min = 2 > max = 1`,
`samplePeriods = 1`. -/
theorem bif_inverted_range_nonempty_witness :
    (⟨2, 1, 1, 0, 0, 1⟩ : BifParams).maxGrowthRate <
      (⟨2, 1, 1, 0, 0, 1⟩ : BifParams).minGrowthRate ∧
    1 ≤ (⟨2, 1, 1, 0, 0, 1⟩ : BifParams).samplePeriods ∧
    totalPoints + 1 ≤ (bifurcationData ⟨2, 1, 1, 0, 0, 1⟩).length :=
  ⟨by norm_num, by norm_num, bif_inverted_range_nonempty _ (by norm_num) (by norm_num)⟩

/-- C5 counterexample: with `minGrowthRate = 2 > maxGrowthRate = 1` the
emitted output is not the empty set, contrary to the claim. -/
theorem bif_inverted_range_counterexample :
    bifurcationData ⟨2, 1, 1, 0, 0, 1⟩ ≠ [] := by
  intro h
  have h2 := length_flatMap_ge (List.range (totalPoints + 1))
    (bifSlice ⟨2, 1, 1, 0, 0, 1⟩) fun i _ => bifSlice_ne_nil _ (by norm_num) i
  rw [bifurcationData] at h
  rw [h] at h2
  simp [totalPoints] at h2

/-- C6 amended: when `minGrowthRate = maxGrowthRate`, every emitted point
has `growthRate = round3 minGrowthRate` — for every such range, with no
condition on `minGrowthRate`; consequently the coordinate equals
`minGrowthRate` itself exactly when the 3-decimal rounding fixes it. -/
theorem bif_degenerate_range_fst (p : BifParams) (pt : ℚ × ℚ)
    (hmm : p.minGrowthRate = p.maxGrowthRate)
    (hpt : pt ∈ bifurcationData p) :
    pt.1 = round3 p.minGrowthRate ∧
    (round3 p.minGrowthRate = p.minGrowthRate → pt.1 = p.minGrowthRate) := by
  have h : pt.1 = round3 p.minGrowthRate := by
    rw [bifurcationData, List.mem_flatMap] at hpt
    obtain ⟨i, _, hpt⟩ := hpt
    exact bifSlice_fst p hmm i pt hpt
  exact ⟨h, fun hr => h.trans hr⟩

/-- C6 witness: the amended theorem at `min = max = 2` and the concrete
emitted point `(2, 0)`. -/
theorem bif_degenerate_range_fst_witness :
    (⟨2, 2, 1, 0, 0, 1⟩ : BifParams).minGrowthRate =
      (⟨2, 2, 1, 0, 0, 1⟩ : BifParams).maxGrowthRate ∧
    ((2 : ℚ), (0 : ℚ)) ∈ bifurcationData ⟨2, 2, 1, 0, 0, 1⟩ ∧
    (((2 : ℚ), (0 : ℚ)).1 = round3 (⟨2, 2, 1, 0, 0, 1⟩ : BifParams).minGrowthRate ∧
     (round3 (⟨2, 2, 1, 0, 0, 1⟩ : BifParams).minGrowthRate =
        (⟨2, 2, 1, 0, 0, 1⟩ : BifParams).minGrowthRate →
      ((2 : ℚ), (0 : ℚ)).1 = (⟨2, 2, 1, 0, 0, 1⟩ : BifParams).minGrowthRate)) := by
  have hmem : ((2 : ℚ), (0 : ℚ)) ∈ bifurcationData ⟨2, 2, 1, 0, 0, 1⟩ := by
    rw [bifurcationData]
    refine List.mem_flatMap.mpr ⟨0, by simp [totalPoints], ?_⟩
    norm_num [bifSlice, settleLoop_zero, sampleLoop_one, insertDedup, round2,
      jsRound, round3, totalPoints, Int.floor_eq_iff]
  exact ⟨rfl, hmem, bif_degenerate_range_fst _ _ rfl hmem⟩

/-- C6 counterexample: at `min = max = 1/3` the point `(333/1000, 0)` is
emitted and its growthRate coordinate `333/1000` differs from
`minGrowthRate = 1/3`, because the sweep stores `round(r*1000)/1000`. -/
theorem bif_degenerate_range_counterexample :
    ¬ (∀ pt ∈ bifurcationData ⟨1/3, 1/3, 1, 0, 0, 1⟩,
        pt.1 = (⟨1/3, 1/3, 1, 0, 0, 1⟩ : BifParams).minGrowthRate) := by
  intro hall
  have hmem : ((333 : ℚ)/1000, (0 : ℚ)) ∈ bifurcationData ⟨1/3, 1/3, 1, 0, 0, 1⟩ := by
    rw [bifurcationData]
    refine List.mem_flatMap.mpr ⟨0, by simp [totalPoints], ?_⟩
    norm_num [bifSlice, settleLoop_zero, sampleLoop_one, insertDedup, round2,
      jsRound, round3, totalPoints, Int.floor_eq_iff]
  have h := hall _ hmem
  norm_num at h

end LogisticReact
